import Mathlib

/-!
Shallow embedding of the finance-server core: the recurring-transaction
schedule engine, the transaction ledger with its balance mutations, the
audited update path, and the XIRR helper.  Each definition is translated
from the JavaScript source (Mongoose models and Express controllers);
monetary amounts (JS doubles) are modelled as exact rationals, and dates
at calendar-day granularity (the time-of-day component plays no role in
any of the verified properties).
-/

namespace FinanceServer

/-! ## Calendar dates (JS `Date` year/month/day component model)

JS `Date` setters (`setDate`, `setMonth`, `setFullYear`) accept
out-of-range components and normalize them by rolling into neighbouring
months/years.  We model a date by its (year, 0-based month, 1-based day)
components together with that normalization. -/

structure Date where
  year : Nat
  month : Nat
  day : Nat
  deriving DecidableEq, Repr

/-- Gregorian leap-year rule (as implemented by JS `Date`). -/
def isLeap (y : Nat) : Bool :=
  (y % 4 = 0 && y % 100 ≠ 0) || y % 400 = 0

/-- Number of days of 0-based month `m` in year `y`. -/
def daysInMonth (y m : Nat) : Nat :=
  match m with
  | 0 => 31
  | 1 => if isLeap y then 29 else 28
  | 2 => 31
  | 3 => 30
  | 4 => 31
  | 5 => 30
  | 6 => 31
  | 7 => 31
  | 8 => 30
  | 9 => 31
  | 10 => 30
  | _ => 31

theorem daysInMonth_pos (y m : Nat) : 1 ≤ daysInMonth y m := by
  unfold daysInMonth
  split <;> first | omega | (split <;> omega)

/-- One forward day-carry step at a time, structurally recursive on a
fuel bound: each carry removes at least 28 days, so a fuel of `d` steps
is always sufficient and the fuel-exhausted base case is unreachable
for the inputs that arise. -/
def carryDaysGo : Nat → Nat → Nat → Nat → Date
  | 0, y, m, d => ⟨y, m, d⟩
  | fuel + 1, y, m, d =>
    if d ≤ daysInMonth y m then ⟨y, m, d⟩
    else
      carryDaysGo fuel (if m ≥ 11 then y + 1 else y) (if m ≥ 11 then 0 else m + 1)
        (d - daysInMonth y m)

/-- Normalize an overflowing day-of-month by rolling into the following
months, exactly as the JS `Date` setters do (our callers only ever
overflow forwards, never below day 1). Expects `m < 12`. -/
def carryDays (y m d : Nat) : Date :=
  carryDaysGo d y m d

/-- JS `d.setMonth(m)`: set the 0-based month (rolling surplus months
into the year), keep the day, then normalize day overflow. -/
def setMonthJS (dt : Date) (m : Nat) : Date :=
  carryDays (dt.year + m / 12) (m % 12) dt.day

/-- JS `d.setDate(n)`: set the day-of-month and normalize overflow
(callers only use values ≥ 1). -/
def setDateJS (dt : Date) (d : Nat) : Date :=
  carryDays dt.year dt.month d

/-- JS `d.setFullYear(y)`: set the year, keep month/day, normalize
(Feb 29 rolls to Mar 1 outside leap years). -/
def setFullYearJS (dt : Date) (y : Nat) : Date :=
  carryDays y dt.month dt.day

/-- Date comparison `a <= b` (lexicographic on normalized components;
JS compares millisecond timestamps, which agrees with this at
day granularity). -/
def Date.leB (a b : Date) : Bool :=
  a.year < b.year ||
    (a.year = b.year &&
      (a.month < b.month || (a.month = b.month && a.day ≤ b.day)))

/-- Date comparison `a < b`. -/
def Date.ltB (a b : Date) : Bool :=
  a.year < b.year ||
    (a.year = b.year &&
      (a.month < b.month || (a.month = b.month && a.day < b.day)))

/-! ## Recurrence schedule (model `RecurringTransaction`) -/

inductive Frequency
  | daily | weekly | biweekly | monthly | quarterly | yearly
  deriving DecidableEq, Repr

/-- JS truthiness of an optional numeric field (`null` and `0` are
falsy, every other number truthy). -/
def truthyNat (o : Option Nat) : Bool :=
  match o with
  | none => false
  | some n => n ≠ 0

/-- `recurringTransactionSchema.methods.calculateNextRunDate`
(src/unnamed/part_005): advance `nextRunDate` by one period.  For
`monthly`, the source first does `setMonth(getMonth() + 1)` (which JS
normalizes, e.g. Jan 31 → Mar 3) and only then, when `dayOfMonth` is
truthy, clamps the day to the last day of the — already normalized —
month; `lastDayOfMonth` is the JS `new Date(y, m + 1, 0).getDate()`
idiom, i.e. the day count of the current month. -/
def calculateNextRunDate (frequency : Frequency) (dayOfMonth : Option Nat)
    (nextRunDate : Date) : Date :=
  match frequency with
  | .daily => setDateJS nextRunDate (nextRunDate.day + 1)
  | .weekly => setDateJS nextRunDate (nextRunDate.day + 7)
  | .biweekly => setDateJS nextRunDate (nextRunDate.day + 14)
  | .monthly =>
    let nd := setMonthJS nextRunDate (nextRunDate.month + 1)
    if truthyNat dayOfMonth then
      let lastDayOfMonth := daysInMonth nd.year nd.month
      setDateJS nd (min (dayOfMonth.getD 0) lastDayOfMonth)
    else nd
  | .quarterly => setMonthJS nextRunDate (nextRunDate.month + 3)
  | .yearly => setFullYearJS nextRunDate (nextRunDate.year + 1)

/-! ## Data model: accounts, transactions, audit logs, budgets

Amounts are exact rationals (JS doubles idealized).  User scoping is
elided: the model is a single user's store, so the `userId` filters of
the controllers are identities.  Mongo ObjectIds are modelled as `Nat`
ids; the store carries a fresh-id counter. -/

inductive TxType
  | income | expense | transfer | investment
  deriving DecidableEq, Repr

inductive AccStatus
  | active | locked
  deriving DecidableEq, Repr

structure Account where
  balance : ℚ
  status : AccStatus
  deriving DecidableEq, Repr

structure Tx where
  id : Nat
  type : TxType
  fromAccount : Option Nat
  toAccount : Option Nat
  amount : ℚ
  category : String
  paymentMode : String
  note : String
  transactionDate : Date
  convertedAmount : Option ℚ
  tags : List Nat
  wasEdited : Bool
  deriving DecidableEq, Repr

/-- One `TransactionLog` document: full before/after snapshots plus the
mandatory reason. -/
structure LogEntry where
  transactionId : Nat
  oldData : Tx
  newData : Tx
  reason : String
  deriving DecidableEq, Repr

/-- One `Budget` document for a (category, month, year) cell; only the
`currentSpent` counter is mutated by the modelled operations. -/
structure Budget where
  category : String
  month : Nat
  year : Nat
  currentSpent : ℚ
  deriving DecidableEq, Repr

/-- The store visible to the modelled controllers. -/
structure St where
  accounts : List (Nat × Account)
  ledger : List Tx
  logs : List LogEntry
  budgets : List Budget
  nextId : Nat
  deriving DecidableEq, Repr

/-- `Account.findById` / `Account.findOne({_id})`. -/
def lookupAcc (accs : List (Nat × Account)) (i : Nat) : Option Account :=
  (accs.find? (fun p => p.1 == i)).map (·.2)

/-- Balance of account `i`, when it exists. -/
def getBalance (accs : List (Nat × Account)) (i : Nat) : Option ℚ :=
  (lookupAcc accs i).map (·.balance)

/-- `Account.findByIdAndUpdate` with a `$inc` on `balance`: a delta
applied to the matching account; with a `null` id (or an absent
account) Mongo matches nothing and the update is a no-op. -/
def incBalance (accs : List (Nat × Account)) (oi : Option Nat) (delta : ℚ) :
    List (Nat × Account) :=
  match oi with
  | none => accs
  | some i =>
    accs.map (fun p =>
      if p.1 = i then (p.1, { p.2 with balance := p.2.balance + delta }) else p)

/-- `Budget.findOneAndUpdate` keyed by category/month/year with a `$inc`
on `currentSpent`, without upsert: increments the matching budget,
no-op when the budget is absent (absence is not an error). -/
def incSpent (bs : List Budget) (category : String) (month year : Nat)
    (amt : ℚ) : List Budget :=
  bs.map (fun b =>
    if b.category = category ∧ b.month = month ∧ b.year = year then
      { b with currentSpent := b.currentSpent + amt }
    else b)

/-- `Transaction.findById` / `findOne({_id})`. -/
def lookupTx (l : List Tx) (i : Nat) : Option Tx :=
  l.find? (fun t => t.id == i)

/-- `Transaction.findByIdAndDelete` (ids are unique in the store). -/
def deleteTx (l : List Tx) (i : Nat) : List Tx :=
  l.filter (fun t => t.id != i)

/-- Well-formedness of the store: every ledger id is below the fresh-id
counter (so a freshly created transaction never collides). -/
def stWF (st : St) : Bool :=
  st.ledger.all (fun t => t.id < st.nextId)

/-! ## `createTransaction` (src/unnamed/part_002, transaction controller)

The request body after the controller's sanitization (empty-string
accounts already turned into `null`). -/

structure TxBody where
  type : TxType
  fromAccount : Option Nat
  toAccount : Option Nat
  amount : ℚ
  category : String
  paymentMode : String
  note : String
  transactionDate : Date
  convertedAmount : Option ℚ
  tags : List Nat
  deriving DecidableEq, Repr

/-- Outcome of a create request: `created` is the 201 path, `rejected`
a 400/404 early return, `thrown` a JS exception reaching the
`catch (err)` handler (the state mutated so far is kept). -/
inductive CreateOutcome
  | created (txId : Nat)
  | rejected (msg : String)
  | thrown
  deriving DecidableEq, Repr

/-- The transaction document built by `Transaction.create(req.body)`. -/
def mkTx (id : Nat) (body : TxBody) : Tx :=
  { id := id
    type := body.type
    fromAccount := body.fromAccount
    toAccount := body.toAccount
    amount := body.amount
    category := body.category
    paymentMode := body.paymentMode
    note := body.note
    transactionDate := body.transactionDate
    convertedAmount := body.convertedAmount
    tags := body.tags
    wasEdited := false }

/-- The controller's up-front account validation: a referenced source
account must exist and be unlocked, a referenced destination account
must exist.  Returns the 400/404 message, or `none` when valid. -/
def validateAccounts (accs : List (Nat × Account)) (body : TxBody) :
    Option String :=
  let checkTo :=
    match body.toAccount with
    | some t =>
      if (lookupAcc accs t).isNone then some "Destination account not found"
      else none
    | none => none
  match body.fromAccount with
  | some f =>
    match lookupAcc accs f with
    | none => some "Source account not found"
    | some acc =>
      if acc.status = .locked then some "Source account is locked" else checkTo
  | none => checkTo

/-- JS `req.body.convertedAmount || amount`: the converted amount when
truthy (present and nonzero), otherwise the original amount. -/
def transferCredit (body : TxBody) : ℚ :=
  match body.convertedAmount with
  | some c => if c ≠ 0 then c else body.amount
  | none => body.amount

/-- `exports.createTransaction`: validate referenced accounts, create
the transaction document, then apply the per-type balance protocol with
a create-then-check-then-rollback for the debiting types.  The Mongoose
schema validation is modelled by its `amount ≥ 0.01` bound (the other
schema rules — required category, note length — are not exercised by any
claim and always pass on the inputs considered); a validation failure
throws before anything is persisted.  For `expense` / `transfer` /
`investment` the source reads `.balance` off a `findById` result, which
throws when `fromAccount` is `null` or absent — after the transaction
document was already persisted. -/
def createTransaction (st : St) (body : TxBody) (now : Date) :
    St × CreateOutcome :=
  match validateAccounts st.accounts body with
  | some msg => (st, .rejected msg)
  | none =>
    if body.amount < 1 / 100 then (st, .thrown)
    else
      let tx := mkTx st.nextId body
      let stC : St :=
        { st with ledger := st.ledger ++ [tx], nextId := st.nextId + 1 }
      match body.type with
      | .income =>
        ({ stC with accounts := incBalance stC.accounts body.toAccount body.amount },
          .created tx.id)
      | .expense =>
        match body.fromAccount.bind (lookupAcc stC.accounts) with
        | none => (stC, .thrown)
        | some acc =>
          if acc.balance < body.amount then
            ({ stC with ledger := deleteTx stC.ledger tx.id },
              .rejected "Insufficient balance in expense account")
          else
            ({ stC with
                accounts := incBalance stC.accounts body.fromAccount (-body.amount)
                budgets := incSpent stC.budgets body.category (now.month + 1)
                  now.year body.amount },
              .created tx.id)
      | .transfer =>
        match body.fromAccount.bind (lookupAcc stC.accounts) with
        | none => (stC, .thrown)
        | some acc =>
          if acc.balance < body.amount then
            ({ stC with ledger := deleteTx stC.ledger tx.id },
              .rejected "Insufficient balance for transfer")
          else
            ({ stC with
                accounts :=
                  incBalance (incBalance stC.accounts body.fromAccount (-body.amount))
                    body.toAccount (transferCredit body) },
              .created tx.id)
      | .investment =>
        match body.fromAccount.bind (lookupAcc stC.accounts) with
        | none => (stC, .thrown)
        | some acc =>
          if acc.balance < body.amount then
            ({ stC with ledger := deleteTx stC.ledger tx.id },
              .rejected "Insufficient balance for investment")
          else
            ({ stC with
                accounts := incBalance stC.accounts body.fromAccount (-body.amount) },
              .created tx.id)

/-! ## `updateTransaction` — the audited amend path
(src/unnamed/part_002) -/

/-- Amendment request body.  `none` models an absent (`undefined`)
field; the `reason` is truthy only when present and non-empty. -/
structure UpdateBody where
  reason : Option String
  amount : Option ℚ
  category : Option String
  paymentMode : Option String
  note : Option String
  transactionDate : Option Date
  tags : Option (List Nat)
  deriving DecidableEq, Repr

/-- JS truthiness of an optional string (`undefined` and `""` falsy). -/
def truthyStr (o : Option String) : Bool :=
  match o with
  | none => false
  | some s => s ≠ ""

/-- The update document built from the allowed fields (`amount`,
`category`, `paymentMode`, `note`, `transactionDate`, `tags`) plus the
forced `wasEdited := true` marker, applied to the stored transaction by
`Transaction.findByIdAndUpdate`. -/
def applyUpdates (tx : Tx) (body : UpdateBody) : Tx :=
  { tx with
    amount := body.amount.getD tx.amount
    category := body.category.getD tx.category
    paymentMode := body.paymentMode.getD tx.paymentMode
    note := body.note.getD tx.note
    transactionDate := body.transactionDate.getD tx.transactionDate
    tags := body.tags.getD tx.tags
    wasEdited := true }

/-- Outcome of an amend request. -/
inductive UpdOutcome
  | notFound
  | reasonRequired
  | insufficient
  | thrown
  | updated (newTx : Tx)
  deriving DecidableEq, Repr

/-- JS truthiness of the amount-change guard
`req.body.amount && req.body.amount !== transaction.amount`. -/
def amountChanged (body : UpdateBody) (tx : Tx) : Bool :=
  match body.amount with
  | none => false
  | some a => a ≠ 0 && a ≠ tx.amount

/-- `exports.updateTransaction`: look the transaction up, require a
truthy reason, snapshot the old document, adjust balances when the
amount changes (only the `income` and `expense` types have a balance
branch in the source; `transfer` and `investment` fall through), write
the update, then append exactly one `TransactionLog` with the before
and after snapshots and the reason.  In the `expense` branch the source
reads `.balance` off `Account.findById(transaction.fromAccount)`, which
throws when that account is `null` or absent (nothing mutated yet at
that point). -/
def updateTransaction (st : St) (txId : Nat) (body : UpdateBody) :
    St × UpdOutcome :=
  match lookupTx st.ledger txId with
  | none => (st, .notFound)
  | some tx =>
    if ¬ truthyStr body.reason then (st, .reasonRequired)
    else
      let oldData := tx
      let finish (stB : St) : St × UpdOutcome :=
        let newTx := applyUpdates tx body
        let stU : St :=
          { stB with
            ledger := stB.ledger.map (fun t => if t.id = txId then applyUpdates t body else t)
            logs := stB.logs ++
              [{ transactionId := txId
                 oldData := oldData
                 newData := newTx
                 reason := body.reason.getD "" }] }
        (stU, .updated newTx)
      if amountChanged body tx then
        let difference := (body.amount.getD 0) - tx.amount
        match tx.type with
        | .income =>
          finish { st with accounts := incBalance st.accounts tx.toAccount difference }
        | .expense =>
          match tx.fromAccount.bind (lookupAcc st.accounts) with
          | none => (st, .thrown)
          | some acc =>
            if acc.balance < difference then (st, .insufficient)
            else
              finish
                { st with accounts := incBalance st.accounts tx.fromAccount (-difference) }
        | .transfer => finish st
        | .investment => finish st
      else finish st

/-! ## Recurring definitions and their execution
(src/unnamed/part_005 model + src/controllers/recurringController.js) -/

/-- A `RecurringTransaction` document (the notification fields and
`startDate`/`dayOfWeek`, which no modelled operation reads, are
omitted). -/
structure RecurringDef where
  name : String
  type : TxType
  fromAccount : Option Nat
  toAccount : Option Nat
  amount : ℚ
  category : String
  paymentMode : String
  note : String
  frequency : Frequency
  dayOfMonth : Option Nat
  endDate : Option Date
  nextRunDate : Date
  lastRunDate : Option Date
  isActive : Bool
  isPaused : Bool
  totalExecutions : Nat
  maxExecutions : Option Nat
  tags : List Nat
  deriving DecidableEq, Repr

/-- `recurringTransactionSchema.methods.shouldExecute`: the eligibility
check.  Note the JS truthiness guard on `maxExecutions` (a stored `0`
is falsy, hence treated like `null` = unlimited); a stored `endDate` is
a `Date` object and always truthy. -/
def shouldExecute (r : RecurringDef) (now : Date) : Bool :=
  if ¬ r.isActive ∨ r.isPaused then false
  else if match r.endDate with
          | some e => Date.ltB e now
          | none => false then false
  else if truthyNat r.maxExecutions ∧ r.totalExecutions ≥ r.maxExecutions.getD 0
    then false
  else Date.leB r.nextRunDate now

/-- The transaction materialized by `executeNow` from the definition's
template fields (note gets the auto-execution marker naming the
definition, the current timestamp becomes the transaction date). -/
def mkRecurringTx (id : Nat) (r : RecurringDef) (now : Date) : Tx :=
  { id := id
    type := r.type
    fromAccount := r.fromAccount
    toAccount := r.toAccount
    amount := r.amount
    category := r.category
    paymentMode := r.paymentMode
    note := ("[Auto: " ++ r.name ++ "] " ++ r.note).trim
    transactionDate := now
    convertedAmount := none
    tags := r.tags
    wasEdited := false }

/-- The balance / budget mutations of `executeNow`'s `if`/`else if`
chain: income credits `toAccount` when it is set; expense debits
`fromAccount` when it is set and bumps the matching budget; transfer
debits `fromAccount` and credits `toAccount` by the same amount (no
conversion on this path); `investment` has no branch at all. -/
def applyRecurringDeltas (st : St) (r : RecurringDef) (now : Date) : St :=
  if r.type = .income ∧ r.toAccount.isSome then
    { st with accounts := incBalance st.accounts r.toAccount r.amount }
  else if r.type = .expense ∧ r.fromAccount.isSome then
    { st with
      accounts := incBalance st.accounts r.fromAccount (-r.amount)
      budgets := incSpent st.budgets r.category (now.month + 1) now.year r.amount }
  else if r.type = .transfer then
    { st with
      accounts :=
        incBalance (incBalance st.accounts r.fromAccount (-r.amount))
          r.toAccount r.amount }
  else st

/-- `executeNow`'s schedule advancement: set `lastRunDate`, recompute
`nextRunDate` via `calculateNextRunDate`, bump `totalExecutions`, and
deactivate once the (truthy) `maxExecutions` bound is reached. -/
def advanceDef (r : RecurringDef) (now : Date) : RecurringDef :=
  let r' := { r with
    lastRunDate := some now
    nextRunDate := calculateNextRunDate r.frequency r.dayOfMonth r.nextRunDate
    totalExecutions := r.totalExecutions + 1 }
  if truthyNat r'.maxExecutions ∧ r'.totalExecutions ≥ r'.maxExecutions.getD 0
  then { r' with isActive := false }
  else r'

/-- `exports.executeNow` (recurringController): materialize a
transaction from the definition, apply the balance/budget deltas, and
advance the definition's schedule state.  The source performs no
eligibility check (`shouldExecute` is never consulted) and no balance
check; on this path `Transaction.create` always succeeds because the
recurring schema already enforces `amount ≥ 0.01`. -/
def executeNow (st : St) (r : RecurringDef) (now : Date) :
    St × RecurringDef × Tx :=
  let tx := mkRecurringTx st.nextId r now
  let stC : St :=
    { st with ledger := st.ledger ++ [tx], nextId := st.nextId + 1 }
  let stB := applyRecurringDeltas stC r now
  (stB, advanceDef r now, tx)

/-- Modelled from the spec: the eligibility-gated scheduled execution
path (spec section 4.1, "a scheduler tick ... validates eligibility")
is not part of the repository source — only its eligibility predicate
`shouldExecute` is.  Per the spec, a tick first consults
`shouldExecute` and, when it refuses, performs no materialization and
no state change (a no-op signal, not an error). -/
def scheduledExecute (st : St) (r : RecurringDef) (now : Date) :
    Option (St × RecurringDef × Tx) :=
  if shouldExecute r now then some (executeNow st r now) else none

/-! ## XIRR (src/controllers/investmentController.js)

The JS floating-point arithmetic is idealized as exact rational
arithmetic; the claim tolerance (0.1 absolute percentage points) is
many orders of magnitude above double rounding error.  `Math.pow` over
the reals is modelled by integer exponentiation, which is exact
whenever the year offset is an integer — as it is for every cash-flow
date arising in the verified claims. -/

/-- `Math.pow base y`, exact when `y` is an integer (`y.den = 1`); the
claims only exercise such exponents. -/
def powQ (base y : ℚ) : ℚ :=
  base ^ y.num

/-- One pass of the inner loop: net present value and its derivative
accumulated over the cash flows at the current guess. -/
def npvPair (cashFlows years : List ℚ) (guess : ℚ) : ℚ × ℚ :=
  (cashFlows.zip years).foldl
    (fun acc p =>
      let pv := p.1 / powQ (1 + guess) p.2
      (acc.1 + pv, acc.2 - p.2 * pv / (1 + guess)))
    (0, 0)

/-- The Newton-Raphson iteration of `calculateXIRRValue`: up to `fuel`
steps; return the new guess as soon as two successive guesses are
within the 1e-4 tolerance, otherwise clamp the guess to [-0.99, 10] and
continue; return the last guess when the iteration budget runs out. -/
def xirrIter (cashFlows years : List ℚ) : Nat → ℚ → ℚ
  | 0, guess => guess
  | fuel + 1, guess =>
    let p := npvPair cashFlows years guess
    let newGuess := guess - p.1 / p.2
    if |newGuess - guess| < 1 / 10000 then newGuess
    else
      let g1 := if newGuess < -(99 / 100 : ℚ) then -(99 / 100 : ℚ) else newGuess
      let g2 := if g1 > 10 then 10 else g1
      xirrIter cashFlows years fuel g2

/-- `calculateXIRRValue(cashFlows, dates)`: dates are millisecond
timestamps, converted to years from the first date by dividing by
365 * 24 * 60 * 60 * 1000; Newton-Raphson with initial guess 0.1 and a
budget of 100 iterations. -/
def calculateXIRRValue (cashFlows dates : List ℚ) : ℚ :=
  if cashFlows.length < 2 then 0
  else
    let firstDate := dates.headD 0
    let years := dates.map (fun d => (d - firstDate) / (365 * 24 * 60 * 60 * 1000))
    xirrIter cashFlows years 100 (1 / 10)

inductive InvTxType
  | buy | sell | dividend | split | bonus
  deriving DecidableEq, Repr

/-- An embedded investment transaction (the fields `calculateXIRR`
reads; `units`, `pricePerUnit` and `notes` are not consulted).  The
date is a millisecond timestamp. -/
structure InvTx where
  type : InvTxType
  date : ℚ
  amount : ℚ
  deriving DecidableEq, Repr

/-- The slice of the `Investment` document that `calculateXIRR`
reads. -/
structure Investment where
  transactions : List InvTx
  status : String
  currentValue : ℚ
  deriving DecidableEq, Repr

/-- The cash-flow builder of `exports.calculateXIRR`: buys are
outflows, sells and dividends inflows, splits/bonuses map to amount 0
and are skipped (the `amount !== 0` guard); when the investment is not
sold, the current value is appended as a final inflow dated now. -/
def buildCashFlows (inv : Investment) (now : ℚ) : List ℚ × List ℚ :=
  let base := inv.transactions.foldl
    (fun (acc : List ℚ × List ℚ) txn =>
      let amount : ℚ :=
        match txn.type with
        | .buy => -txn.amount
        | .sell => txn.amount
        | .dividend => txn.amount
        | _ => 0
      if amount ≠ 0 then (acc.1 ++ [amount], acc.2 ++ [txn.date]) else acc)
    ([], [])
  if inv.status ≠ "sold" then
    (base.1 ++ [inv.currentValue], base.2 ++ [now])
  else base

/-- The percentage reported by the XIRR endpoint: `xirr * 100`. -/
def xirrPercent (inv : Investment) (now : ℚ) : ℚ :=
  let cf := buildCashFlows inv now
  calculateXIRRValue cf.1 cf.2 * 100

/-! ## Helper lemmas about the store -/

theorem incBalance_cons (a : Nat × Account) (l : List (Nat × Account))
    (i : Nat) (d : ℚ) :
    incBalance (a :: l) (some i) d =
      (if a.1 = i then (a.1, { a.2 with balance := a.2.balance + d }) else a) ::
        incBalance l (some i) d := rfl

theorem getBalance_incBalance_self (accs : List (Nat × Account)) (i : Nat)
    (d : ℚ) :
    getBalance (incBalance accs (some i) d) i = (getBalance accs i).map (· + d) := by
  induction accs with
  | nil => rfl
  | cons a l ih =>
    rw [incBalance_cons]
    by_cases h : a.1 = i
    · rw [if_pos h]
      unfold getBalance lookupAcc
      rw [List.find?_cons_of_pos _ (by simp [h]),
        List.find?_cons_of_pos _ (by simp [h])]
      rfl
    · rw [if_neg h]
      unfold getBalance lookupAcc
      rw [List.find?_cons_of_neg _ (by simp [h]),
        List.find?_cons_of_neg _ (by simp [h])]
      exact ih

theorem getBalance_incBalance_other (accs : List (Nat × Account)) (i j : Nat)
    (d : ℚ) (h : j ≠ i) :
    getBalance (incBalance accs (some i) d) j = getBalance accs j := by
  induction accs with
  | nil => rfl
  | cons a l ih =>
    rw [incBalance_cons]
    by_cases hj : a.1 = j
    · have ha : ¬ a.1 = i := by omega
      rw [if_neg ha]
      unfold getBalance lookupAcc
      rw [List.find?_cons_of_pos _ (by simp [hj]),
        List.find?_cons_of_pos _ (by simp [hj])]
    · by_cases ha : a.1 = i
      · rw [if_pos ha]
        unfold getBalance lookupAcc
        rw [List.find?_cons_of_neg _ (by simp [ha]; omega),
          List.find?_cons_of_neg _ (by simp [hj])]
        exact ih
      · rw [if_neg ha]
        unfold getBalance lookupAcc
        rw [List.find?_cons_of_neg _ (by simp [hj]),
          List.find?_cons_of_neg _ (by simp [hj])]
        exact ih

/-- Deleting a freshly appended transaction restores the ledger when its
id is fresh. -/
theorem deleteTx_append (l : List Tx) (tx : Tx)
    (h : ∀ t ∈ l, t.id ≠ tx.id) :
    deleteTx (l ++ [tx]) tx.id = l := by
  unfold deleteTx
  rw [List.filter_append]
  have h1 : l.filter (fun t => t.id != tx.id) = l := by
    rw [List.filter_eq_self]
    intro t ht
    simpa using h t ht
  have h2 : [tx].filter (fun t => t.id != tx.id) = [] := by simp
  rw [h1, h2, List.append_nil]

/-- Looking up the amended transaction in the updated ledger yields the
post-amend snapshot (`applyUpdates` preserves the id). -/
theorem lookupTx_map_update (l : List Tx) (i : Nat) (body : UpdateBody) :
    lookupTx (l.map fun t => if t.id = i then applyUpdates t body else t) i
      = (lookupTx l i).map (fun t => applyUpdates t body) := by
  induction l with
  | nil => rfl
  | cons a l ih =>
    rw [List.map_cons]
    by_cases h : a.id = i
    · unfold lookupTx
      rw [if_pos h, List.find?_cons_of_pos _ (by simp [applyUpdates, h]),
        List.find?_cons_of_pos _ (by simp [h])]
      rfl
    · unfold lookupTx
      rw [if_neg h, List.find?_cons_of_neg _ (by simp [h]),
        List.find?_cons_of_neg _ (by simp [h])]
      exact ih

/-- The two date comparisons are dual: `now ≤ e` holds exactly when
`e < now` fails. -/
theorem leB_iff_not_ltB (a b : Date) :
    Date.leB a b = true ↔ ¬ Date.ltB b a = true := by
  simp only [Date.leB, Date.ltB, Bool.or_eq_true, Bool.and_eq_true,
    decide_eq_true_eq]
  omega

/-! ## Sample store states and definitions used by the concrete
theorems and witnesses -/

/-- A store with one active account (id 1) holding balance 50. -/
def stPoor : St :=
  { accounts := [(1, { balance := 50, status := .active })]
    ledger := [], logs := [], budgets := [], nextId := 0 }

/-- A monthly recurring expense of 100 drawn from account 1. -/
def rentDef : RecurringDef :=
  { name := "Rent", type := .expense, fromAccount := some 1, toAccount := none
    amount := 100, category := "housing", paymentMode := "bank_transfer"
    note := "", frequency := .monthly, dayOfMonth := some 1, endDate := none
    nextRunDate := ⟨2025, 0, 1⟩, lastRunDate := none, isActive := true
    isPaused := false, totalExecutions := 0, maxExecutions := none, tags := [] }

/-! ## The claims -/

/-- Claim C1: the claim says a monthly definition with `dayOfMonth = 31`
and `nextRunDate =` Jan 31 advances to Feb 28 (Feb 29 in a leap year),
clamping and never overflowing past the target month.  The code
disagrees: `setMonth` normalizes Jan 31 + 1 month to Mar 3 *before* the
clamp runs, so the clamp applies inside March and the result is Mar 31
— February is skipped entirely.  This theorem evaluates the source's
`calculateNextRunDate` at the claim's own example (2025, and leap year
2024) and exhibits the divergence. -/
theorem calculateNextRunDate_monthly_day31_overflows :
    calculateNextRunDate .monthly (some 31) ⟨2025, 0, 31⟩ = ⟨2025, 2, 31⟩ ∧
    calculateNextRunDate .monthly (some 31) ⟨2025, 0, 31⟩ ≠ ⟨2025, 1, 28⟩ ∧
    calculateNextRunDate .monthly (some 31) ⟨2024, 0, 31⟩ = ⟨2024, 2, 31⟩ ∧
    calculateNextRunDate .monthly (some 31) ⟨2024, 0, 31⟩ ≠ ⟨2024, 1, 29⟩ := by
  decide

set_option maxRecDepth 4000 in
/-- Claim C2: the claim says an execution whose source account balance
is below the definition's amount is rejected with no partially-applied
state.  The code's `executeNow` performs no balance check at all: with
account 1 holding 50 and a recurring expense of 100, it persists the
materialized transaction, drives the balance to −50 (breaching the
Account schema's own non-negativity bound), sets `lastRunDate`,
advances `nextRunDate` and increments `totalExecutions`. -/
theorem executeNow_insufficient_balance_not_rejected :
    getBalance (executeNow stPoor rentDef ⟨2025, 0, 1⟩).1.accounts 1 = some (-50) ∧
    (executeNow stPoor rentDef ⟨2025, 0, 1⟩).1.ledger.length = 1 ∧
    (executeNow stPoor rentDef ⟨2025, 0, 1⟩).2.1.totalExecutions = 1 ∧
    (executeNow stPoor rentDef ⟨2025, 0, 1⟩).2.1.lastRunDate = some ⟨2025, 0, 1⟩ ∧
    (executeNow stPoor rentDef ⟨2025, 0, 1⟩).2.1.nextRunDate = ⟨2025, 1, 1⟩ := by
  with_unfolding_all decide

set_option maxRecDepth 4000 in
/-- Claim C9: XIRR of a single buy of 1000 whose current value is 1100
exactly one year (365 days, matching the source's year divisor of
365 * 24h in milliseconds) after the buy.  With the exact-rational
idealization of the double arithmetic, the very first Newton-Raphson
step from the initial guess 0.1 already meets the 1e-4 tolerance and
the reported percentage is exactly 10, well within the claimed 0.1
absolute percentage point. -/
theorem xirr_single_buy_ten_percent :
    |xirrPercent
        { transactions := [{ type := .buy, date := 0, amount := 1000 }]
          status := "active", currentValue := 1100 }
        (365 * 24 * 60 * 60 * 1000) - 10| ≤ 1 / 10 := by
  with_unfolding_all decide

/-- The eligibility predicate exactly as the claim words it (a
spec-side definition, written for comparison with the source's
`shouldExecute`): active, not paused, endDate absent or not yet passed,
maxExecutions absent or not yet reached, and the cursor due. -/
def claimedEligible (r : RecurringDef) (now : Date) : Bool :=
  r.isActive && !r.isPaused &&
    (match r.endDate with
     | none => true
     | some e => Date.leB now e) &&
    (match r.maxExecutions with
     | none => true
     | some m => r.totalExecutions < m) &&
    Date.leB r.nextRunDate now

/-- Claim C8, counterexample: the claimed biconditional fails on a
definition with `maxExecutions = 0` — JS truthiness makes a stored `0`
falsy, so the source skips the execution-count guard entirely and
returns `true`, while the claim's condition ("maxExecutions is null or
totalExecutions < maxExecutions") is false. -/
theorem shouldExecute_maxExecutions_zero :
    shouldExecute { rentDef with totalExecutions := 5, maxExecutions := some 0 }
        ⟨2025, 5, 1⟩ = true ∧
    claimedEligible { rentDef with totalExecutions := 5, maxExecutions := some 0 }
        ⟨2025, 5, 1⟩ = false := by
  with_unfolding_all decide

/-- Claim C8 (amended): `shouldExecute` returns true iff isActive,
not isPaused, endDate is null or now ≤ endDate, maxExecutions is null
**or zero** or totalExecutions < maxExecutions, and now ≥ nextRunDate;
any failing condition yields the refusal value `false`, never an
error. -/
theorem shouldExecute_iff (r : RecurringDef) (now : Date) :
    shouldExecute r now = true ↔
      (r.isActive = true ∧ r.isPaused = false ∧
       (∀ e, r.endDate = some e → Date.leB now e = true) ∧
       (∀ m, r.maxExecutions = some m → m = 0 ∨ r.totalExecutions < m) ∧
       Date.leB r.nextRunDate now = true) := by
  obtain ⟨nm, ty, fA, tA, amt, cat, pm, nt, fq, dom, endD, nrd, lrd, act, paus,
    tot, maxE, tg⟩ := r
  simp only [shouldExecute]
  cases act <;> cases paus <;> cases endD <;> cases maxE <;>
    · simp only [truthyNat]
      split_ifs <;>
        simp_all [leB_iff_not_ltB] <;> omega

/-- Claim C8 (amended) witness: the biconditional instantiated at the
sample monthly definition. -/
theorem shouldExecute_iff_witness :
    shouldExecute rentDef ⟨2025, 0, 1⟩ = true ↔
      (rentDef.isActive = true ∧ rentDef.isPaused = false ∧
       (∀ e, rentDef.endDate = some e → Date.leB ⟨2025, 0, 1⟩ e = true) ∧
       (∀ m, rentDef.maxExecutions = some m →
         m = 0 ∨ rentDef.totalExecutions < m) ∧
       Date.leB rentDef.nextRunDate ⟨2025, 0, 1⟩ = true) :=
  shouldExecute_iff rentDef ⟨2025, 0, 1⟩

/-- Claim C3: with `maxExecutions = 3` and a fresh execution counter,
the first two executions leave the definition active, the third flips
`isActive` to false, and afterwards `shouldExecute` refuses at every
instant, so the eligibility-gated scheduled path (modelled from the
spec, since only `shouldExecute` itself is in the source) performs no
materialization and no state change on a fourth attempt. -/
theorem maxExecutions_three_deactivates (st1 st2 st3 : St)
    (r : RecurringDef) (n1 n2 n3 : Date)
    (hact : r.isActive = true) (htot : r.totalExecutions = 0)
    (hmax : r.maxExecutions = some 3) :
    let r1 := (executeNow st1 r n1).2.1
    let r2 := (executeNow st2 r1 n2).2.1
    let r3 := (executeNow st3 r2 n3).2.1
    r1.isActive = true ∧ r2.isActive = true ∧ r3.isActive = false ∧
    (∀ now, shouldExecute r3 now = false) ∧
    (∀ st now, scheduledExecute st r3 now = none) := by
  simp only [executeNow, advanceDef, truthyNat, hmax, htot, hact]
  norm_num
  refine ⟨?_, ?_⟩
  · intro now
    simp [shouldExecute]
  · intro st now
    simp [scheduledExecute, shouldExecute]

/-- Claim C3 witness: the scenario instantiated with the sample store
and definition. -/
theorem maxExecutions_three_deactivates_witness :
    ({ rentDef with maxExecutions := some 3 } : RecurringDef).isActive = true ∧
    ({ rentDef with maxExecutions := some 3 } : RecurringDef).totalExecutions = 0 ∧
    ({ rentDef with maxExecutions := some 3 } : RecurringDef).maxExecutions = some 3 ∧
    (let r1 := (executeNow stPoor { rentDef with maxExecutions := some 3 } ⟨2025, 0, 1⟩).2.1
     let r2 := (executeNow stPoor r1 ⟨2025, 1, 1⟩).2.1
     let r3 := (executeNow stPoor r2 ⟨2025, 2, 1⟩).2.1
     r1.isActive = true ∧ r2.isActive = true ∧ r3.isActive = false ∧
     (∀ now, shouldExecute r3 now = false) ∧
     (∀ st now, scheduledExecute st r3 now = none)) :=
  ⟨rfl, rfl, rfl,
    maxExecutions_three_deactivates stPoor stPoor stPoor
      { rentDef with maxExecutions := some 3 } ⟨2025, 0, 1⟩ ⟨2025, 1, 1⟩
      ⟨2025, 2, 1⟩ rfl rfl rfl⟩

/-- Claim C10: `executeNow` consults none of the `shouldExecute`
preconditions: even for a definition that is currently ineligible
(`shouldExecute = false` — inactive, paused, expired or at its
execution bound), it still appends exactly the materialized transaction
to the ledger, sets `lastRunDate`, advances `nextRunDate` via
`calculateNextRunDate`, increments `totalExecutions`, and applies the
per-type balance deltas. -/
theorem executeNow_bypasses_eligibility (st : St) (r : RecurringDef)
    (now : Date) (_hinelig : shouldExecute r now = false) :
    ((executeNow st r now).1.ledger
        = st.ledger ++ [mkRecurringTx st.nextId r now]) ∧
    (executeNow st r now).2.1.lastRunDate = some now ∧
    (executeNow st r now).2.1.totalExecutions = r.totalExecutions + 1 ∧
    ((executeNow st r now).2.1.nextRunDate
        = calculateNextRunDate r.frequency r.dayOfMonth r.nextRunDate) ∧
    (r.type = .expense → ∀ f, r.fromAccount = some f →
      getBalance (executeNow st r now).1.accounts f
        = (getBalance st.accounts f).map (· + (-r.amount))) ∧
    (r.type = .income → ∀ t, r.toAccount = some t →
      getBalance (executeNow st r now).1.accounts t
        = (getBalance st.accounts t).map (· + r.amount)) := by
  refine ⟨?_, ?_, ?_, ?_, ?_, ?_⟩
  · simp only [executeNow, applyRecurringDeltas]
    split_ifs <;> rfl
  · simp only [executeNow, advanceDef]
    split_ifs <;> rfl
  · simp only [executeNow, advanceDef]
    split_ifs <;> rfl
  · simp only [executeNow, advanceDef]
    split_ifs <;> rfl
  · intro hty f hf
    simp only [executeNow, applyRecurringDeltas, hty, hf]
    simp [getBalance_incBalance_self]
  · intro hty t ht
    simp only [executeNow, applyRecurringDeltas, hty, ht]
    simp [getBalance_incBalance_self]

/-- Claim C10 witness: a paused (hence ineligible) copy of the sample
definition is still fully executed by `executeNow`. -/
theorem executeNow_bypasses_eligibility_witness :
    shouldExecute { rentDef with isPaused := true } ⟨2025, 0, 1⟩ = false ∧
    (((executeNow stPoor { rentDef with isPaused := true } ⟨2025, 0, 1⟩).1.ledger
        = stPoor.ledger ++
          [mkRecurringTx stPoor.nextId { rentDef with isPaused := true } ⟨2025, 0, 1⟩]) ∧
     (executeNow stPoor { rentDef with isPaused := true } ⟨2025, 0, 1⟩).2.1.lastRunDate
        = some ⟨2025, 0, 1⟩ ∧
     (executeNow stPoor { rentDef with isPaused := true } ⟨2025, 0, 1⟩).2.1.totalExecutions
        = ({ rentDef with isPaused := true } : RecurringDef).totalExecutions + 1 ∧
     ((executeNow stPoor { rentDef with isPaused := true } ⟨2025, 0, 1⟩).2.1.nextRunDate
        = calculateNextRunDate ({ rentDef with isPaused := true } : RecurringDef).frequency
            ({ rentDef with isPaused := true } : RecurringDef).dayOfMonth
            ({ rentDef with isPaused := true } : RecurringDef).nextRunDate) ∧
     (({ rentDef with isPaused := true } : RecurringDef).type = .expense →
       ∀ f, ({ rentDef with isPaused := true } : RecurringDef).fromAccount = some f →
        getBalance (executeNow stPoor { rentDef with isPaused := true } ⟨2025, 0, 1⟩).1.accounts f
          = (getBalance stPoor.accounts f).map
              (· + (-({ rentDef with isPaused := true } : RecurringDef).amount))) ∧
     (({ rentDef with isPaused := true } : RecurringDef).type = .income →
       ∀ t, ({ rentDef with isPaused := true } : RecurringDef).toAccount = some t →
        getBalance (executeNow stPoor { rentDef with isPaused := true } ⟨2025, 0, 1⟩).1.accounts t
          = (getBalance stPoor.accounts t).map
              (· + ({ rentDef with isPaused := true } : RecurringDef).amount))) :=
  ⟨by with_unfolding_all decide,
    executeNow_bypasses_eligibility stPoor { rentDef with isPaused := true }
      ⟨2025, 0, 1⟩ (by with_unfolding_all decide)⟩

/-- Claim C4: an expense-creation request whose amount exceeds the
source account's balance never yields a created transaction, and the
net observable state is unchanged: balances, ledger and logs all keep
their prior values (the source creates the transaction first but rolls
it back with `findByIdAndDelete`, and the fresh id makes the rollback
exact). -/
theorem createTransaction_insufficient_expense (st : St) (body : TxBody)
    (now : Date) (f : Nat) (acc : Account)
    (hwf : stWF st = true)
    (hty : body.type = .expense)
    (hfrom : body.fromAccount = some f)
    (hacc : lookupAcc st.accounts f = some acc)
    (hbal : acc.balance < body.amount) :
    (createTransaction st body now).1.accounts = st.accounts ∧
    (createTransaction st body now).1.ledger = st.ledger ∧
    (createTransaction st body now).1.logs = st.logs ∧
    ∀ tid, (createTransaction st body now).2 ≠ .created tid := by
  have hfresh : ∀ t ∈ st.ledger, t.id ≠ (mkTx st.nextId body).id := by
    intro t ht
    have := List.all_eq_true.mp hwf t ht
    simp only [decide_eq_true_eq] at this
    simp only [mkTx]
    omega
  have hdel := deleteTx_append st.ledger (mkTx st.nextId body) hfresh
  rcases hto : body.toAccount with _ | t <;>
    simp only [createTransaction, validateAccounts, hto, hty, hfrom, hacc,
      Option.some_bind] <;>
    split_ifs <;>
    first
      | (exact absurd hbal (by assumption))
      | (exact ⟨rfl, hdel, rfl, by simp⟩)
      | simp

/-- Claim C4 witness: creating a 100-expense from account 1 (balance
50) is refused and leaves the store untouched. -/
theorem createTransaction_insufficient_expense_witness :
    stWF stPoor = true ∧
    ((createTransaction stPoor
        { type := .expense, fromAccount := some 1, toAccount := none
          amount := 100, category := "food", paymentMode := "cash"
          note := "", transactionDate := ⟨2025, 0, 1⟩, convertedAmount := none
          tags := [] } ⟨2025, 0, 1⟩).1.accounts = stPoor.accounts ∧
     (createTransaction stPoor
        { type := .expense, fromAccount := some 1, toAccount := none
          amount := 100, category := "food", paymentMode := "cash"
          note := "", transactionDate := ⟨2025, 0, 1⟩, convertedAmount := none
          tags := [] } ⟨2025, 0, 1⟩).1.ledger = stPoor.ledger ∧
     (createTransaction stPoor
        { type := .expense, fromAccount := some 1, toAccount := none
          amount := 100, category := "food", paymentMode := "cash"
          note := "", transactionDate := ⟨2025, 0, 1⟩, convertedAmount := none
          tags := [] } ⟨2025, 0, 1⟩).1.logs = stPoor.logs ∧
     ∀ tid, (createTransaction stPoor
        { type := .expense, fromAccount := some 1, toAccount := none
          amount := 100, category := "food", paymentMode := "cash"
          note := "", transactionDate := ⟨2025, 0, 1⟩, convertedAmount := none
          tags := [] } ⟨2025, 0, 1⟩).2 ≠ .created tid) :=
  ⟨rfl,
    createTransaction_insufficient_expense stPoor
      { type := .expense, fromAccount := some 1, toAccount := none
        amount := 100, category := "food", paymentMode := "cash"
        note := "", transactionDate := ⟨2025, 0, 1⟩, convertedAmount := none
        tags := [] } ⟨2025, 0, 1⟩ 1 { balance := 50, status := .active } rfl rfl
      rfl (by with_unfolding_all decide) (by with_unfolding_all decide)⟩

/-- Claim C7: for every accepted creation the balance deltas follow the
per-type protocol — income credits `toAccount` by the amount; transfer
debits `fromAccount` by the original amount and credits `toAccount` by
`transferCredit` (the converted amount when a truthy conversion is
specified, else the same amount); investment only debits `fromAccount`,
crediting no account.  Accounts not named by the transaction keep their
balances. -/
theorem createTransaction_balance_protocol (st : St) (body : TxBody)
    (now : Date) (st' : St) (tid : Nat)
    (hcr : createTransaction st body now = (st', .created tid)) :
    (body.type = .income → ∀ t, body.toAccount = some t →
      getBalance st'.accounts t = (getBalance st.accounts t).map (· + body.amount) ∧
      ∀ j, j ≠ t → getBalance st'.accounts j = getBalance st.accounts j) ∧
    (body.type = .transfer → ∀ f t, body.fromAccount = some f →
      body.toAccount = some t → f ≠ t →
      getBalance st'.accounts f = (getBalance st.accounts f).map (· - body.amount) ∧
      getBalance st'.accounts t
        = (getBalance st.accounts t).map (· + transferCredit body) ∧
      ∀ j, j ≠ f → j ≠ t → getBalance st'.accounts j = getBalance st.accounts j) ∧
    (body.type = .investment → ∀ f, body.fromAccount = some f →
      getBalance st'.accounts f = (getBalance st.accounts f).map (· - body.amount) ∧
      ∀ j, j ≠ f → getBalance st'.accounts j = getBalance st.accounts j) := by
  rcases hv : validateAccounts st.accounts body with _ | msg
  case some =>
    simp only [createTransaction, hv] at hcr
    simp at hcr
  case none =>
  by_cases hamt : body.amount < 1 / 100
  · simp only [createTransaction, hv, if_pos hamt] at hcr
    simp at hcr
  refine ⟨?_, ?_, ?_⟩
  · -- income
    intro hty t htTo
    simp only [createTransaction, hv, if_neg hamt, hty] at hcr
    injection hcr with h1 h2
    subst h1
    rw [htTo]
    constructor
    · exact getBalance_incBalance_self st.accounts t body.amount
    · intro j hj
      exact getBalance_incBalance_other st.accounts t j body.amount hj
  · -- transfer
    intro hty f t hfrom htTo hft
    simp only [createTransaction, hv, if_neg hamt, hty, hfrom,
      Option.some_bind] at hcr
    rcases hlk : lookupAcc st.accounts f with _ | acc
    · rw [hlk] at hcr; simp at hcr
    simp only [hlk] at hcr
    by_cases hb : acc.balance < body.amount
    · rw [if_pos hb] at hcr; simp at hcr
    rw [if_neg hb] at hcr
    injection hcr with h1 h2
    subst h1
    rw [htTo]
    refine ⟨?_, ?_, ?_⟩
    · rw [getBalance_incBalance_other _ t f _ hft,
        getBalance_incBalance_self st.accounts f (-body.amount)]
      simp [sub_eq_add_neg]
    · rw [getBalance_incBalance_self,
        getBalance_incBalance_other _ f t _ (Ne.symm hft)]
    · intro j hjf hjt
      rw [getBalance_incBalance_other _ t j _ hjt,
        getBalance_incBalance_other _ f j _ hjf]
  · -- investment
    intro hty f hfrom
    simp only [createTransaction, hv, if_neg hamt, hty, hfrom,
      Option.some_bind] at hcr
    rcases hlk : lookupAcc st.accounts f with _ | acc
    · rw [hlk] at hcr; simp at hcr
    simp only [hlk] at hcr
    by_cases hb : acc.balance < body.amount
    · rw [if_pos hb] at hcr; simp at hcr
    rw [if_neg hb] at hcr
    injection hcr with h1 h2
    subst h1
    refine ⟨?_, ?_⟩
    · rw [getBalance_incBalance_self st.accounts f (-body.amount)]
      simp [sub_eq_add_neg]
    · intro j hj
      exact getBalance_incBalance_other st.accounts f j _ hj

/-- A store with two active accounts for the transfer witness. -/
def stTwo : St :=
  { accounts := [(1, { balance := 50, status := .active }),
                 (2, { balance := 5, status := .active })]
    ledger := [], logs := [], budgets := [], nextId := 0 }

/-- A transfer of 30 from account 1 to account 2 converted to 27. -/
def transferBody : TxBody :=
  { type := .transfer, fromAccount := some 1, toAccount := some 2
    amount := 30, category := "move", paymentMode := "bank_transfer"
    note := "", transactionDate := ⟨2025, 0, 1⟩
    convertedAmount := some 27, tags := [] }

set_option maxRecDepth 4000 in
/-- Claim C7 witness: the accepted conversion transfer debits account 1
by 30 and credits account 2 by the converted 27. -/
theorem createTransaction_balance_protocol_witness :
    (createTransaction stTwo transferBody ⟨2025, 0, 1⟩).2 = .created 0 ∧
    getBalance (createTransaction stTwo transferBody ⟨2025, 0, 1⟩).1.accounts 1
      = some 20 ∧
    getBalance (createTransaction stTwo transferBody ⟨2025, 0, 1⟩).1.accounts 2
      = some 32 := by
  have hcr : createTransaction stTwo transferBody ⟨2025, 0, 1⟩
      = ((createTransaction stTwo transferBody ⟨2025, 0, 1⟩).1, .created 0) := by
    with_unfolding_all decide
  have h := createTransaction_balance_protocol stTwo transferBody ⟨2025, 0, 1⟩
    (createTransaction stTwo transferBody ⟨2025, 0, 1⟩).1 0 hcr
  obtain ⟨h1, h2, h3⟩ := h.2.1 rfl 1 2 rfl rfl (by omega)
  refine ⟨?_, ?_, ?_⟩
  · with_unfolding_all decide
  · rw [h1]; with_unfolding_all decide
  · rw [h2]; with_unfolding_all decide

/-- Claim C5: amending an existing transaction without a truthy reason
is rejected with the store fully unchanged; when an amendment with
reason `r` succeeds, the store gains exactly one new `TransactionLog`
entry whose `oldData` is the complete pre-amend snapshot, whose
`newData` is the complete post-amend snapshot (which is also what the
ledger then holds at that id), recording `r` — so a log is never
missing for an amended transaction. -/
theorem updateTransaction_audit (st : St) (txId : Nat) (body : UpdateBody)
    (tx : Tx) (hfind : lookupTx st.ledger txId = some tx) :
    (truthyStr body.reason = false →
      updateTransaction st txId body = (st, .reasonRequired)) ∧
    (∀ r st' newTx, body.reason = some r →
      updateTransaction st txId body = (st', .updated newTx) →
      newTx = applyUpdates tx body ∧
      st'.logs = st.logs ++
        [{ transactionId := txId, oldData := tx, newData := newTx, reason := r }] ∧
      lookupTx st'.ledger txId = some newTx) := by
  constructor
  · intro hfal
    simp [updateTransaction, hfind, hfal]
  · intro r st' newTx hr hupd
    by_cases hre : truthyStr body.reason = true
    case neg =>
      rw [Bool.not_eq_true] at hre
      simp [updateTransaction, hfind, hre] at hupd
    case pos =>
      have hgetr : body.reason.getD "" = r := by rw [hr]; rfl
      simp only [updateTransaction, hfind, hre, not_true_eq_false, if_false] at hupd
      by_cases hch : amountChanged body tx = true
      · rw [if_pos hch] at hupd
        rcases hty : tx.type with _ | _ | _ | _ <;> simp only [hty] at hupd
        · injection hupd with hA hB
          injection hB with hC
          subst hA
          exact ⟨hC.symm, by rw [hgetr, hC], by rw [← hC, lookupTx_map_update, hfind]; rfl⟩
        · rcases hlk : tx.fromAccount.bind (lookupAcc st.accounts) with _ | acc <;>
            simp only [hlk] at hupd
          · simp at hupd
          · by_cases hb : acc.balance < body.amount.getD 0 - tx.amount
            · rw [if_pos hb] at hupd
              simp at hupd
            · rw [if_neg hb] at hupd
              injection hupd with hA hB
              injection hB with hC
              subst hA
              exact ⟨hC.symm, by rw [hgetr, hC],
                by rw [← hC, lookupTx_map_update, hfind]; rfl⟩
        · injection hupd with hA hB
          injection hB with hC
          subst hA
          exact ⟨hC.symm, by rw [hgetr, hC], by rw [← hC, lookupTx_map_update, hfind]; rfl⟩
        · injection hupd with hA hB
          injection hB with hC
          subst hA
          exact ⟨hC.symm, by rw [hgetr, hC], by rw [← hC, lookupTx_map_update, hfind]; rfl⟩
      · rw [if_neg hch] at hupd
        injection hupd with hA hB
        injection hB with hC
        subst hA
        exact ⟨hC.symm, by rw [hgetr, hC], by rw [← hC, lookupTx_map_update, hfind]; rfl⟩

/-- The sample ledger used by the amend witnesses: one transfer of 100
between accounts 1 and 2, both holding 500. -/
def txTransfer : Tx :=
  { id := 0, type := .transfer, fromAccount := some 1, toAccount := some 2
    amount := 100, category := "move", paymentMode := "bank_transfer"
    note := "", transactionDate := ⟨2025, 0, 1⟩, convertedAmount := none
    tags := [], wasEdited := false }

/-- Store holding `txTransfer` and the two accounts it references. -/
def stTransfer : St :=
  { accounts := [(1, { balance := 500, status := .active }),
                 (2, { balance := 500, status := .active })]
    ledger := [txTransfer], logs := [], budgets := [], nextId := 1 }

/-- Amend request: change the amount from 100 to 200, with a reason. -/
def amendBody : UpdateBody :=
  { reason := some "fix amount", amount := some 200, category := none
    paymentMode := none, note := none, transactionDate := none, tags := none }

set_option maxRecDepth 4000 in
/-- Claim C5 witness: the amend of the sample transfer succeeds with
exactly one audit log carrying both snapshots and the reason. -/
theorem updateTransaction_audit_witness :
    lookupTx stTransfer.ledger 0 = some txTransfer ∧
    ((truthyStr ({ amendBody with reason := none } : UpdateBody).reason = false →
      updateTransaction stTransfer 0 { amendBody with reason := none }
        = (stTransfer, .reasonRequired)) ∧
     (updateTransaction stTransfer 0 amendBody).2
        = .updated (applyUpdates txTransfer amendBody) ∧
     (updateTransaction stTransfer 0 amendBody).1.logs
        = stTransfer.logs ++
          [{ transactionId := 0, oldData := txTransfer
             newData := applyUpdates txTransfer amendBody
             reason := "fix amount" }] ∧
     lookupTx (updateTransaction stTransfer 0 amendBody).1.ledger 0
        = some (applyUpdates txTransfer amendBody)) := by
  have h0 : lookupTx stTransfer.ledger 0 = some txTransfer := by
    with_unfolding_all decide
  have hth := updateTransaction_audit stTransfer 0 amendBody txTransfer h0
  have hth2 := updateTransaction_audit stTransfer 0
    { amendBody with reason := none } txTransfer h0
  have hupd : updateTransaction stTransfer 0 amendBody
      = ((updateTransaction stTransfer 0 amendBody).1,
         .updated (applyUpdates txTransfer amendBody)) := by
    with_unfolding_all decide
  obtain ⟨-, hlog, hled⟩ := hth.2 "fix amount"
    (updateTransaction stTransfer 0 amendBody).1
    (applyUpdates txTransfer amendBody) rfl hupd
  refine ⟨h0, hth2.1, ?_, hlog, hled⟩
  rw [hupd]

set_option maxRecDepth 8000 in
/-- Claim C6, counterexample: amending the amount of a *transfer*
transaction (100 → 200, with a reason) succeeds, yet neither referenced
account balance moves — the source's amount-change branch only handles
`income` and `expense`, so no debit/credit delta is applied for
transfer (or investment) amendments, contradicting the claim's "every
type" and its insufficient-funds parity. -/
theorem updateTransaction_transfer_no_delta :
    (updateTransaction stTransfer 0 amendBody).2
      = .updated (applyUpdates txTransfer amendBody) ∧
    getBalance (updateTransaction stTransfer 0 amendBody).1.accounts 1 = some 500 ∧
    getBalance (updateTransaction stTransfer 0 amendBody).1.accounts 2 = some 500 ∧
    ¬ getBalance (updateTransaction stTransfer 0 amendBody).1.accounts 1 = some 400 := by
  with_unfolding_all decide

/-- Claim C6 (amended): amending the amount applies the balance delta
(newAmount − oldAmount) only for `income` (credit `toAccount` by the
delta) and `expense` (debit `fromAccount` by the delta, rejected with
no state change when the account balance is below the delta — the same
guard as insufficient-funds creation); `transfer` and `investment`
amendments update the stored amount without touching any balance. -/
theorem updateTransaction_amount_delta (st : St) (txId : Nat)
    (body : UpdateBody) (tx : Tx) (a : ℚ)
    (hfind : lookupTx st.ledger txId = some tx)
    (hre : truthyStr body.reason = true)
    (hA : body.amount = some a) (ha0 : a ≠ 0) (hne : a ≠ tx.amount) :
    (tx.type = .income → ∀ t, tx.toAccount = some t →
      getBalance (updateTransaction st txId body).1.accounts t
        = (getBalance st.accounts t).map (· + (a - tx.amount)) ∧
      ∀ j, j ≠ t →
        getBalance (updateTransaction st txId body).1.accounts j
          = getBalance st.accounts j) ∧
    (tx.type = .expense → ∀ f acc, tx.fromAccount = some f →
      lookupAcc st.accounts f = some acc →
      (acc.balance < a - tx.amount →
        updateTransaction st txId body = (st, .insufficient)) ∧
      (¬ acc.balance < a - tx.amount →
        getBalance (updateTransaction st txId body).1.accounts f
          = (getBalance st.accounts f).map (· - (a - tx.amount)) ∧
        ∀ j, j ≠ f →
          getBalance (updateTransaction st txId body).1.accounts j
            = getBalance st.accounts j)) ∧
    ((tx.type = .transfer ∨ tx.type = .investment) →
      (updateTransaction st txId body).1.accounts = st.accounts) := by
  have hch : amountChanged body tx = true := by
    simp [amountChanged, hA, ha0, hne]
  have hget : body.amount.getD 0 = a := by rw [hA]; rfl
  refine ⟨?_, ?_, ?_⟩
  · intro hty t hto
    simp only [updateTransaction, hfind, hre, not_true_eq_false, if_false,
      if_pos hch, hty, hget, hto]
    constructor
    · exact getBalance_incBalance_self st.accounts t (a - tx.amount)
    · intro j hj
      exact getBalance_incBalance_other st.accounts t j _ hj
  · intro hty f acc hfrom hacc
    simp only [updateTransaction, hfind, hre, not_true_eq_false, if_false,
      if_pos hch, hty, hget, hfrom, Option.some_bind, hacc]
    constructor
    · intro hb
      rw [if_pos hb]
    · intro hb
      rw [if_neg hb]
      constructor
      · rw [getBalance_incBalance_self st.accounts f (-(a - tx.amount))]
        simp [sub_eq_add_neg]
      · intro j hj
        exact getBalance_incBalance_other st.accounts f j _ hj
  · intro hty
    rcases hty with hty | hty <;>
      simp only [updateTransaction, hfind, hre, not_true_eq_false, if_false,
        if_pos hch, hty]

/-- The expense transaction used by the C6 amended-claim witness. -/
def txExpense : Tx :=
  { id := 0, type := .expense, fromAccount := some 1, toAccount := none
    amount := 100, category := "food", paymentMode := "cash"
    note := "", transactionDate := ⟨2025, 0, 1⟩, convertedAmount := none
    tags := [], wasEdited := false }

/-- Store holding `txExpense` and account 1 with balance 500. -/
def stExpense : St :=
  { accounts := [(1, { balance := 500, status := .active })]
    ledger := [txExpense], logs := [], budgets := [], nextId := 1 }

set_option maxRecDepth 8000 in
/-- Claim C6 (amended) witness: amending the 100-expense up to 200
(account 1 holding 500) debits the account by the 100 delta. -/
theorem updateTransaction_amount_delta_witness :
    lookupTx stExpense.ledger 0 = some txExpense ∧
    truthyStr amendBody.reason = true ∧ amendBody.amount = some 200 ∧
    getBalance (updateTransaction stExpense 0 amendBody).1.accounts 1
      = some 400 := by
  have h := updateTransaction_amount_delta stExpense 0 amendBody txExpense 200
    (by with_unfolding_all decide) rfl rfl (by norm_num)
    (by with_unfolding_all decide)
  obtain ⟨hbal, -⟩ := (h.2.1 rfl 1 { balance := 500, status := .active }
    rfl (by with_unfolding_all decide)).2 (by with_unfolding_all decide)
  refine ⟨by with_unfolding_all decide, rfl, rfl, ?_⟩
  rw [hbal]
  with_unfolding_all decide

end FinanceServer
